import Mathlib

/-!
Verification of the peer negotiation core of a remote-control screen-sharing
application.  The development shallowly embeds:

* the per-remote-participant negotiation state kept by the useWebRTC hook
  (maps from user id to peer connection, data channel and pending ICE
  candidates, plus the connected-users list) and its event handlers
  (createPeerConnection, handleOffer, handleAnswer, handleIceCandidate,
  handleUserConnected, handleSendOffer, startCall, the connection-state
  change callback and the data-channel message callback);
* the signaling relay handlers of the socket.io server (offer, answer and
  ice-candidate forwarding);
* the guest page input capture (mouse handlers that normalise coordinates
  to [0,100] percentages before sending).

JavaScript Map objects are modelled as association lists with JS Map
semantics (set replaces in place, insertion order preserved); the
single-threaded event loop lets every async handler be modelled as a pure
state transition.
-/

namespace Remote

/-! ## Association-list model of a JavaScript Map keyed by user id -/

/-- Map.get: the value stored at key k, if any. -/
def mapGet {α : Type} : List (String × α) → String → Option α
  | [], _ => none
  | (k', v') :: rest, k => if k' = k then some v' else mapGet rest k

/-- Map.set: replace in place when the key is present, append otherwise. -/
def mapSet {α : Type} : List (String × α) → String → α → List (String × α)
  | [], k, v => [(k, v)]
  | (k', v') :: rest, k, v =>
      if k' = k then (k, v) :: rest else (k', v') :: mapSet rest k v

/-- Map.delete: remove every entry stored at key k. -/
def mapDelete {α : Type} : List (String × α) → String → List (String × α)
  | [], _ => []
  | (k', v') :: rest, k =>
      if k' = k then mapDelete rest k else (k', v') :: mapDelete rest k

/-- Map.has. -/
def mapHas {α : Type} (m : List (String × α)) (k : String) : Bool :=
  (mapGet m k).isSome

theorem mapGet_mapSet_self {α : Type} (m : List (String × α)) (k : String) (v : α) :
    mapGet (mapSet m k v) k = some v := by
  induction m with
  | nil => simp [mapSet, mapGet]
  | cons p rest ih =>
      obtain ⟨k', v'⟩ := p
      by_cases h : k' = k
      · simp [mapSet, mapGet, h]
      · simp [mapSet, mapGet, h, ih]

theorem mapGet_mapSet_ne {α : Type} (m : List (String × α)) (k k' : String) (v : α)
    (h : k ≠ k') : mapGet (mapSet m k v) k' = mapGet m k' := by
  induction m with
  | nil => simp [mapSet, mapGet, h]
  | cons p rest ih =>
      obtain ⟨k₀, v₀⟩ := p
      by_cases h₀ : k₀ = k
      · subst h₀; simp [mapSet, mapGet, h]
      · simp only [mapSet, if_neg h₀]
        by_cases h₁ : k₀ = k'
        · simp [mapGet, h₁]
        · simp [mapGet, h₁, ih]

theorem mapGet_mapDelete_self {α : Type} (m : List (String × α)) (k : String) :
    mapGet (mapDelete m k) k = none := by
  induction m with
  | nil => simp [mapDelete, mapGet]
  | cons p rest ih =>
      obtain ⟨k', v'⟩ := p
      by_cases h : k' = k
      · simp [mapDelete, h, ih]
      · simp [mapDelete, mapGet, h, ih]

/-! ## Data model -/

/-- The type tag of a session description. -/
inductive DescType : Type
  | offer
  | answer
deriving DecidableEq, Repr

/-- A session description (opaque SDP payload identified by a tag). -/
structure Desc : Type where
  dtype : DescType
  sdp : Nat
deriving DecidableEq, Repr

/-- The WebRTC signaling sub-state of one peer connection. -/
inductive SigState : Type
  | stable
  | haveLocalOffer
  | haveRemoteOffer
deriving DecidableEq, Repr

/-- An ICE candidate; valid records whether addIceCandidate succeeds on it
(a failing candidate is caught and logged by the handlers). -/
structure Candidate : Type where
  payload : Nat
  valid : Bool
deriving DecidableEq, Repr

/-- The observable state of one RTCPeerConnection.  handle is the identity
of the underlying transport object (a fresh one per construction);
applied records the candidates successfully added, in order. -/
structure PC : Type where
  handle : Nat
  signalingState : SigState
  localDescription : Option Desc
  remoteDescription : Option Desc
  tracksAttached : Bool
  applied : List Candidate
deriving DecidableEq, Repr

/-- The observable state of one RTCDataChannel. -/
structure Channel : Type where
  handle : Nat
  label : String
  ordered : Bool
  readyStateOpen : Bool
deriving DecidableEq, Repr

/-- The per-participant state held by the useWebRTC hook: the three
refs keyed by remote user id, the connectedUsers list, the initiator
flag and a counter supplying fresh transport handles. -/
structure ClientState : Type where
  peerConnections : List (String × PC)
  dataChannels : List (String × Channel)
  pendingCandidates : List (String × List Candidate)
  connectedUsers : List String
  isInitiator : Bool
  nextHandle : Nat
deriving DecidableEq, Repr

/-- The hook state before any event fires. -/
def initialState : ClientState :=
  { peerConnections := []
    dataChannels := []
    pendingCandidates := []
    connectedUsers := []
    isInitiator := false
    nextHandle := 0 }

/-- A message the hook emits on the signaling socket. -/
inductive OutMsg : Type
  | offer (targetUserId : String) (payload : Desc)
  | answer (targetUserId : String) (payload : Desc)
  | iceCandidate (targetUserId : String) (payload : Candidate)
  | requestOffer
deriving DecidableEq, Repr

/-- RTCPeerConnection.connectionState values. -/
inductive ConnState : Type
  | fresh
  | connecting
  | connected
  | disconnected
  | failed
  | closed
deriving DecidableEq, Repr

/-! ## Operations of the useWebRTC hook -/

/-- setupDataChannel: store the channel in the per-user map (the attached
open/close/message/error handlers are modelled separately). -/
def setupDataChannel (st : ClientState) (userId : String) (ch : Channel) : ClientState :=
  { st with dataChannels := mapSet st.dataChannels userId ch }

/-- createPeerConnection: return the existing connection if one is already
stored for userId; otherwise build a fresh transport, register it, make
sure a pending-candidate list exists for the user, and attach the local
media tracks when a local stream is present. -/
def createPeerConnection (st : ClientState) (hasLocalStream : Bool) (userId : String) :
    ClientState × PC :=
  match mapGet st.peerConnections userId with
  | some pc => (st, pc)
  | none =>
      let pc : PC :=
        { handle := st.nextHandle
          signalingState := SigState.stable
          localDescription := none
          remoteDescription := none
          tracksAttached := hasLocalStream
          applied := [] }
      let st' : ClientState :=
        { st with
          peerConnections := mapSet st.peerConnections userId pc
          pendingCandidates :=
            if mapHas st.pendingCandidates userId then st.pendingCandidates
            else mapSet st.pendingCandidates userId []
          nextHandle := st.nextHandle + 1 }
      (st', pc)

/-- pc.addIceCandidate wrapped in the try/catch of the handlers: a valid
candidate is appended to the applied list, a failing one is logged and
the connection is left as it was. -/
def addIceCandidate (pc : PC) (c : Candidate) : PC :=
  if c.valid then { pc with applied := pc.applied ++ [c] } else pc

/-- The drain loop the offer and answer handlers run after installing the
remote description: attempt every pending candidate in order. -/
def drainPending (pc : PC) (cands : List Candidate) : PC :=
  cands.foldl addIceCandidate pc

/-- pc.createOffer followed by pc.setLocalDescription(offer). -/
def setLocalOffer (pc : PC) : PC × Desc :=
  let offer : Desc := { dtype := DescType.offer, sdp := pc.handle }
  ({ pc with localDescription := some offer, signalingState := SigState.haveLocalOffer },
   offer)

/-- handleUserConnected: the host reacts to a new member by creating the
connection and sending an offer; a guest instead asks the host for one. -/
def handleUserConnected (st : ClientState) (hasLocalStream isHost : Bool)
    (userId : String) : ClientState × List OutMsg :=
  if isHost then
    let st₀ := { st with isInitiator := true }
    let r := createPeerConnection st₀ hasLocalStream userId
    let p := setLocalOffer r.2
    ({ r.1 with peerConnections := mapSet r.1.peerConnections userId p.1 },
     [OutMsg.offer userId p.2])
  else
    (st, [OutMsg.requestOffer])

/-- handleOffer: create (or fetch) the record for the sender, clear the
initiator flag, drop the offer if the connection is not in stable
signaling state, otherwise install the remote offer, produce and install
a local answer, emit it, then drain and clear the pending candidates. -/
def handleOffer (st : ClientState) (hasLocalStream : Bool) (offer : Desc)
    (senderId : String) : ClientState × List OutMsg :=
  let r := createPeerConnection st hasLocalStream senderId
  let st₁ := { r.1 with isInitiator := false }
  let pc := r.2
  if pc.signalingState ≠ SigState.stable then
    (st₁, [])
  else
    let pc₁ := { pc with remoteDescription := some offer
                         signalingState := SigState.haveRemoteOffer }
    let answer : Desc := { dtype := DescType.answer, sdp := pc₁.handle }
    let pc₂ := { pc₁ with localDescription := some answer
                          signalingState := SigState.stable }
    let pending := (mapGet st₁.pendingCandidates senderId).getD []
    let pc₃ := drainPending pc₂ pending
    ({ st₁ with
       peerConnections := mapSet st₁.peerConnections senderId pc₃
       pendingCandidates := mapSet st₁.pendingCandidates senderId [] },
     [OutMsg.answer senderId answer])

/-- handleAnswer: ignore the message when no record exists for the sender
or the record is not in have-local-offer; otherwise install the remote
answer, drain and clear the pending candidates, and add the sender to
connectedUsers unless already present. -/
def handleAnswer (st : ClientState) (answer : Desc) (senderId : String) :
    ClientState × List OutMsg :=
  match mapGet st.peerConnections senderId with
  | none => (st, [])
  | some pc =>
      if pc.signalingState ≠ SigState.haveLocalOffer then
        (st, [])
      else
        let pc₁ := { pc with remoteDescription := some answer
                             signalingState := SigState.stable }
        let pending := (mapGet st.pendingCandidates senderId).getD []
        let pc₂ := drainPending pc₁ pending
        ({ st with
           peerConnections := mapSet st.peerConnections senderId pc₂
           pendingCandidates := mapSet st.pendingCandidates senderId []
           connectedUsers :=
             if st.connectedUsers.contains senderId then st.connectedUsers
             else st.connectedUsers ++ [senderId] },
         [])

/-- handleIceCandidate: buffer the candidate when no record exists or the
remote description is not yet installed; otherwise apply it now. -/
def handleIceCandidate (st : ClientState) (cand : Candidate) (senderId : String) :
    ClientState :=
  match mapGet st.peerConnections senderId with
  | none =>
      let cands := (mapGet st.pendingCandidates senderId).getD []
      { st with pendingCandidates := mapSet st.pendingCandidates senderId (cands ++ [cand]) }
  | some pc =>
      if pc.remoteDescription.isSome then
        { st with peerConnections := mapSet st.peerConnections senderId (addIceCandidate pc cand) }
      else
        let cands := (mapGet st.pendingCandidates senderId).getD []
        { st with pendingCandidates := mapSet st.pendingCandidates senderId (cands ++ [cand]) }

/-- handleSendOffer: only the host answers a relayed request-offer, by
creating the connection for the requester and emitting an offer. -/
def handleSendOffer (st : ClientState) (hasLocalStream isHost : Bool)
    (requesterId : String) : ClientState × List OutMsg :=
  if !isHost then
    (st, [])
  else
    let r := createPeerConnection st hasLocalStream requesterId
    let p := setLocalOffer r.2
    ({ r.1 with peerConnections := mapSet r.1.peerConnections requesterId p.1 },
     [OutMsg.offer requesterId p.2])

/-- startCall: create (or fetch) the connection for the target (default
id broadcast), open the reliable ordered input data channel when the
local role is host and none exists yet, then install and emit an offer. -/
def startCall (st : ClientState) (hasLocalStream isHost : Bool)
    (userId : Option String) : ClientState × List OutMsg :=
  let targetUserId := userId.getD "broadcast"
  let r := createPeerConnection st hasLocalStream targetUserId
  let st₁ :=
    if isHost && !(mapHas r.1.dataChannels targetUserId) then
      let dc : Channel :=
        { handle := r.1.nextHandle, label := "input", ordered := true,
          readyStateOpen := false }
      { setupDataChannel r.1 targetUserId dc with nextHandle := r.1.nextHandle + 1 }
    else r.1
  let p := setLocalOffer r.2
  ({ st₁ with peerConnections := mapSet st₁.peerConnections targetUserId p.1 },
   [OutMsg.offer targetUserId p.2])

/-- pc.onconnectionstatechange: when the transport reports disconnected or
failed, delete the record, its data channel and its pending candidates,
and remove the user from connectedUsers. -/
def onConnectionStateChange (st : ClientState) (userId : String) (cs : ConnState) :
    ClientState :=
  if cs = ConnState.disconnected ∨ cs = ConnState.failed then
    { st with
      peerConnections := mapDelete st.peerConnections userId
      dataChannels := mapDelete st.dataChannels userId
      pendingCandidates := mapDelete st.pendingCandidates userId
      connectedUsers := st.connectedUsers.filter (fun id => id ≠ userId) }
  else st

/-! ## The signaling relay (socket.io server side) -/

/-- A signaling message as the relay delivers it: the forwarded payload
together with the sender id the relay attaches and the target id taken
from the request. -/
structure ForwardedMsg : Type where
  senderId : String
  targetUserId : String
  payload : Nat
deriving DecidableEq, Repr

/-- socket.to(roomId).emit: deliver one message to every member of the
room except the sender. -/
def socketToEmit (roomMembers : List String) (senderId : String)
    (msg : ForwardedMsg) : List (String × ForwardedMsg) :=
  (roomMembers.filter (fun m => m ≠ senderId)).map (fun m => (m, msg))

/-- The relay's offer handler: forward the payload to the room, tagged
with the sender id and the requested target id. -/
def relayOffer (roomMembers : List String) (senderId targetUserId : String)
    (payload : Nat) : List (String × ForwardedMsg) :=
  socketToEmit roomMembers senderId
    { senderId := senderId, targetUserId := targetUserId, payload := payload }

/-- The relay's answer handler: identical forwarding. -/
def relayAnswer (roomMembers : List String) (senderId targetUserId : String)
    (payload : Nat) : List (String × ForwardedMsg) :=
  socketToEmit roomMembers senderId
    { senderId := senderId, targetUserId := targetUserId, payload := payload }

/-- The relay's ice-candidate handler: identical forwarding. -/
def relayIceCandidate (roomMembers : List String) (senderId targetUserId : String)
    (payload : Nat) : List (String × ForwardedMsg) :=
  socketToEmit roomMembers senderId
    { senderId := senderId, targetUserId := targetUserId, payload := payload }

/-! ## Guest-side input capture and host-side input delivery -/

/-- The kinds of input event carried on the input channel. -/
inductive InputType : Type
  | mousemove
  | mousedown
  | mouseup
  | click
  | keydown
  | keyup
  | wheel
deriving DecidableEq, Repr

/-- An input event as serialised on the input channel; optional fields
mirror the optional members of the TypeScript interface. -/
structure InputEvent : Type where
  type : InputType
  x : Option ℚ
  y : Option ℚ
  button : Option Nat
  key : Option String
  code : Option String
  deltaY : Option ℚ
  timestamp : Nat
deriving DecidableEq, Repr

/-- The bounding client rect of the video overlay. -/
structure Rect : Type where
  left : ℚ
  top : ℚ
  width : ℚ
  height : ℚ
deriving DecidableEq, Repr

/-- The percentage coordinates the guest page computes from a mouse event. -/
def normX (rect : Rect) (clientX : ℚ) : ℚ := (clientX - rect.left) / rect.width * 100

/-- The percentage y coordinate, same computation on the vertical axis. -/
def normY (rect : Rect) (clientY : ℚ) : ℚ := (clientY - rect.top) / rect.height * 100

/-- handleMouseMove of the guest page: normalise the pointer position and
send a mousemove only when both coordinates fall within [0,100]; none
means no event is transmitted. -/
def handleMouseMove (rect : Rect) (clientX clientY : ℚ) (ts : Nat) :
    Option InputEvent :=
  let x := normX rect clientX
  let y := normY rect clientY
  if 0 ≤ x ∧ x ≤ 100 ∧ 0 ≤ y ∧ y ≤ 100 then
    some { type := InputType.mousemove, x := some x, y := some y,
           button := none, key := none, code := none, deltaY := none,
           timestamp := ts }
  else
    none

/-- handleClick of the guest page: same in-bounds guard, click payload. -/
def handleClick (rect : Rect) (clientX clientY : ℚ) (button : Nat) (ts : Nat) :
    Option InputEvent :=
  let x := normX rect clientX
  let y := normY rect clientY
  if 0 ≤ x ∧ x ≤ 100 ∧ 0 ≤ y ∧ y ≤ 100 then
    some { type := InputType.click, x := some x, y := some y,
           button := some button, key := none, code := none, deltaY := none,
           timestamp := ts }
  else
    none

/-- The raw data arriving on the input channel: either a payload that
JSON-parses to an input event, or one that does not. -/
inductive WireData : Type
  | wellFormed (ev : InputEvent)
  | malformed
deriving DecidableEq, Repr

/-- JSON.parse of an input-channel message. -/
def parseInputEvent : WireData → Option InputEvent
  | WireData.wellFormed ev => some ev
  | WireData.malformed => none

/-- channel.onmessage of setupDataChannel: parse the payload and hand any
successfully parsed event to the registered input callback; a parse
failure is logged and dropped.  No field of the event is inspected. -/
def onDataChannelMessage (data : WireData) : Option InputEvent :=
  match parseInputEvent data with
  | some ev => some ev
  | none => none

/-- Whether the pointer coordinates of an event (when present) lie within
the [0,100] percentage range. -/
def coordsInRange (ev : InputEvent) : Prop :=
  (∀ q ∈ ev.x, 0 ≤ q ∧ q ≤ 100) ∧ (∀ q ∈ ev.y, 0 ≤ q ∧ q ≤ 100)

/-! ## The event-driven step relation of one hook instance -/

/-- One inbound event a hook instance can react to. -/
inductive Event : Type
  | userConnected (hasLocalStream isHost : Bool) (userId : String)
  | sendOffer (hasLocalStream isHost : Bool) (requesterId : String)
  | offer (hasLocalStream : Bool) (payload : Desc) (senderId : String)
  | answer (payload : Desc) (senderId : String)
  | iceCandidate (payload : Candidate) (senderId : String)
  | connStateChange (userId : String) (cs : ConnState)
  | callStart (hasLocalStream isHost : Bool) (target : Option String)
deriving DecidableEq, Repr

/-- The state transition each event induces (emitted messages dropped). -/
def step (st : ClientState) : Event → ClientState
  | Event.userConnected hls h u => (handleUserConnected st hls h u).1
  | Event.sendOffer hls h r => (handleSendOffer st hls h r).1
  | Event.offer hls p s => (handleOffer st hls p s).1
  | Event.answer p s => (handleAnswer st p s).1
  | Event.iceCandidate p s => handleIceCandidate st p s
  | Event.connStateChange u cs => onConnectionStateChange st u cs
  | Event.callStart hls h t => (startCall st hls h t).1

/-- The states a hook instance can reach from its initial state. -/
inductive Reachable : ClientState → Prop
  | init : Reachable initialState
  | next {st : ClientState} (h : Reachable st) (e : Event) : Reachable (step st e)

/-! ## Derived observations used by the claim statements -/

/-- Whether handleIceCandidate buffers (rather than applies) a candidate
from senderId in state st: no record yet, or no remote description. -/
def buffersCandidate (st : ClientState) (senderId : String) : Bool :=
  match mapGet st.peerConnections senderId with
  | none => true
  | some pc => !pc.remoteDescription.isSome

/-- Whether handleOffer accepts an offer from senderId in state st: no
record yet (a fresh stable one is created), or the record is stable. -/
def acceptsOffer (st : ClientState) (senderId : String) : Bool :=
  match mapGet st.peerConnections senderId with
  | none => true
  | some pc => decide (pc.signalingState = SigState.stable)

/-- The pending-candidate buffer of senderId (empty when absent). -/
def getPending (st : ClientState) (senderId : String) : List Candidate :=
  (mapGet st.pendingCandidates senderId).getD []

/-- The applied-candidate list of the record for senderId (empty when
absent). -/
def appliedOf (st : ClientState) (senderId : String) : List Candidate :=
  match mapGet st.peerConnections senderId with
  | none => []
  | some pc => pc.applied

/-! ## Helper lemmas -/

theorem addIceCandidate_remoteDescription (pc : PC) (c : Candidate) :
    (addIceCandidate pc c).remoteDescription = pc.remoteDescription := by
  unfold addIceCandidate
  split <;> rfl

theorem drainPending_remoteDescription (cands : List Candidate) (pc : PC) :
    (drainPending pc cands).remoteDescription = pc.remoteDescription := by
  induction cands generalizing pc with
  | nil => rfl
  | cons c rest ih =>
      simp only [drainPending, List.foldl_cons] at ih ⊢
      rw [ih, addIceCandidate_remoteDescription]

theorem drainPending_applied (cands : List Candidate) (pc : PC) :
    (drainPending pc cands).applied
      = pc.applied ++ cands.filter (fun c => c.valid) := by
  induction cands generalizing pc with
  | nil => simp [drainPending]
  | cons c rest ih =>
      by_cases h : c.valid
      · simp [drainPending, List.foldl_cons, addIceCandidate, h] at ih ⊢
        rw [ih]
        simp
      · simp [drainPending, List.foldl_cons, addIceCandidate, h] at ih ⊢
        rw [ih]

theorem createPeerConnection_of_some {st : ClientState} {uid : String} {pc : PC}
    (hls : Bool) (h : mapGet st.peerConnections uid = some pc) :
    createPeerConnection st hls uid = (st, pc) := by
  unfold createPeerConnection
  rw [h]

theorem createPeerConnection_of_none {st : ClientState} {uid : String}
    (hls : Bool) (h : mapGet st.peerConnections uid = none) :
    createPeerConnection st hls uid =
      ({ st with
         peerConnections := mapSet st.peerConnections uid
           { handle := st.nextHandle
             signalingState := SigState.stable
             localDescription := none
             remoteDescription := none
             tracksAttached := hls
             applied := [] }
         pendingCandidates :=
           if mapHas st.pendingCandidates uid then st.pendingCandidates
           else mapSet st.pendingCandidates uid []
         nextHandle := st.nextHandle + 1 },
       { handle := st.nextHandle
         signalingState := SigState.stable
         localDescription := none
         remoteDescription := none
         tracksAttached := hls
         applied := [] }) := by
  unfold createPeerConnection
  rw [h]

theorem createPeerConnection_get_self (st : ClientState) (hls : Bool) (uid : String) :
    mapGet (createPeerConnection st hls uid).1.peerConnections uid
      = some (createPeerConnection st hls uid).2 := by
  cases h : mapGet st.peerConnections uid with
  | some pc => rw [createPeerConnection_of_some hls h]; exact h
  | none => rw [createPeerConnection_of_none hls h]; exact mapGet_mapSet_self ..

theorem createPeerConnection_dataChannels (st : ClientState) (hls : Bool) (uid : String) :
    (createPeerConnection st hls uid).1.dataChannels = st.dataChannels := by
  cases h : mapGet st.peerConnections uid with
  | some pc => rw [createPeerConnection_of_some hls h]
  | none => rw [createPeerConnection_of_none hls h]

theorem createPeerConnection_connectedUsers (st : ClientState) (hls : Bool) (uid : String) :
    (createPeerConnection st hls uid).1.connectedUsers = st.connectedUsers := by
  cases h : mapGet st.peerConnections uid with
  | some pc => rw [createPeerConnection_of_some hls h]
  | none => rw [createPeerConnection_of_none hls h]

theorem createPeerConnection_getPending (st : ClientState) (hls : Bool) (uid : String) :
    getPending (createPeerConnection st hls uid).1 uid = getPending st uid := by
  cases h : mapGet st.peerConnections uid with
  | some pc => rw [createPeerConnection_of_some hls h]
  | none =>
      rw [createPeerConnection_of_none hls h]
      unfold getPending
      by_cases hp : mapHas st.pendingCandidates uid
      · simp [hp]
      · simp only [hp, if_false, Bool.false_eq_true]
        rw [mapGet_mapSet_self]
        unfold mapHas at hp
        cases hg : mapGet st.pendingCandidates uid with
        | some l => rw [hg] at hp; simp at hp
        | none => simp

theorem handleOffer_connectedUsers (st : ClientState) (hls : Bool) (offer : Desc)
    (senderId : String) :
    (handleOffer st hls offer senderId).1.connectedUsers = st.connectedUsers := by
  unfold handleOffer
  have hcu := createPeerConnection_connectedUsers st hls senderId
  dsimp only
  split <;> simpa using hcu

theorem handleUserConnected_connectedUsers (st : ClientState) (hls isHost : Bool)
    (userId : String) :
    (handleUserConnected st hls isHost userId).1.connectedUsers = st.connectedUsers := by
  unfold handleUserConnected
  split
  · simpa using
      createPeerConnection_connectedUsers { st with isInitiator := true } hls userId
  · rfl

theorem handleSendOffer_connectedUsers (st : ClientState) (hls isHost : Bool)
    (requesterId : String) :
    (handleSendOffer st hls isHost requesterId).1.connectedUsers = st.connectedUsers := by
  unfold handleSendOffer
  split
  · rfl
  · simpa using createPeerConnection_connectedUsers st hls requesterId

theorem startCall_connectedUsers (st : ClientState) (hls isHost : Bool)
    (target : Option String) :
    (startCall st hls isHost target).1.connectedUsers = st.connectedUsers := by
  unfold startCall
  have hcu := createPeerConnection_connectedUsers st hls (target.getD "broadcast")
  dsimp only
  split <;> simpa [setupDataChannel] using hcu

theorem handleIceCandidate_connectedUsers (st : ClientState) (cand : Candidate)
    (senderId : String) :
    (handleIceCandidate st cand senderId).connectedUsers = st.connectedUsers := by
  unfold handleIceCandidate
  cases mapGet st.peerConnections senderId with
  | none => rfl
  | some pc => dsimp only; split <;> rfl

theorem handleAnswer_connectedUsers_cases (st : ClientState) (answer : Desc)
    (senderId : String) :
    (handleAnswer st answer senderId).1.connectedUsers = st.connectedUsers
    ∨ ((handleAnswer st answer senderId).1.connectedUsers
         = st.connectedUsers ++ [senderId] ∧ senderId ∉ st.connectedUsers) := by
  unfold handleAnswer
  cases mapGet st.peerConnections senderId with
  | none => exact Or.inl rfl
  | some pc =>
      dsimp only
      split
      · exact Or.inl rfl
      · by_cases hmem : st.connectedUsers.contains senderId
        · have hm : senderId ∈ st.connectedUsers := by simpa using hmem
          exact Or.inl (by simp [hm])
        · have hm : senderId ∉ st.connectedUsers := by simpa using hmem
          exact Or.inr ⟨by simp [hm], hm⟩

theorem onConnectionStateChange_connectedUsers_cases (st : ClientState)
    (userId : String) (cs : ConnState) :
    (onConnectionStateChange st userId cs).connectedUsers = st.connectedUsers
    ∨ (onConnectionStateChange st userId cs).connectedUsers
        = st.connectedUsers.filter (fun id => id ≠ userId) := by
  unfold onConnectionStateChange
  split
  · exact Or.inr rfl
  · exact Or.inl rfl

/-! ## Concrete states used by counterexamples and witnesses -/

/-- A record holding an outstanding local offer (glare situation on the
guest side: its own offer to the host is in flight). -/
def glarePC : PC :=
  { handle := 0
    signalingState := SigState.haveLocalOffer
    localDescription := some { dtype := DescType.offer, sdp := 0 }
    remoteDescription := none
    tracksAttached := false
    applied := [] }

/-- A guest hook state with an outstanding offer toward the host. -/
def glareState : ClientState :=
  { peerConnections := [("host", glarePC)]
    dataChannels := []
    pendingCandidates := [("host", [])]
    connectedUsers := []
    isInitiator := true
    nextHandle := 1 }

/-- The offer the host sends simultaneously (the glare counterpart). -/
def glareOffer : Desc := { dtype := DescType.offer, sdp := 42 }

/-- A state with a full set of entries for user g: a record, a channel, a
pending candidate and a connected-users entry. -/
def teardownState : ClientState :=
  { peerConnections :=
      [("g", { handle := 0
               signalingState := SigState.stable
               localDescription := none
               remoteDescription := some { dtype := DescType.answer, sdp := 1 }
               tracksAttached := false
               applied := [] })]
    dataChannels :=
      [("g", { handle := 1, label := "input", ordered := true, readyStateOpen := true })]
    pendingCandidates := [("g", [{ payload := 5, valid := true }])]
    connectedUsers := ["g"]
    isInitiator := true
    nextHandle := 2 }

/-- An input event whose x coordinate lies outside the [0,100] range. -/
def oobEvent : InputEvent :=
  { type := InputType.mousemove
    x := some 150
    y := some 50
    button := none
    key := none
    code := none
    deltaY := none
    timestamp := 0 }

/-! ## The claims -/

/-- C1: createPeerConnection is idempotent: a second call for the same
remote id returns the state unchanged and the very same record (hence the
same transport handle), replacing no map entry and creating no second
transport. -/
theorem C1_createPeerConnection_idempotent (st : ClientState) (hls hls' : Bool)
    (userId : String) :
    createPeerConnection (createPeerConnection st hls userId).1 hls' userId
      = ((createPeerConnection st hls userId).1, (createPeerConnection st hls userId).2) := by
  exact createPeerConnection_of_some hls' (createPeerConnection_get_self st hls userId)

/-- C2 counterexample: a guest holding an outstanding offer toward the
host that receives the host's simultaneous offer does NOT accept it: no
answer is emitted, the record keeps its own local offer, no remote
description is installed; only the initiator flag is reset.  This refutes
the claim that the guest discards its own offer and accepts the incoming
one. -/
theorem C2_cex_glare_offer_not_accepted :
    (handleOffer glareState false glareOffer "host").2 = []
    ∧ (handleOffer glareState false glareOffer "host").1
        = { glareState with isInitiator := false }
    ∧ glarePC.signalingState = SigState.haveLocalOffer
    ∧ glarePC.remoteDescription = none := by
  decide

/-- C2 amended: when an offer arrives from a sender whose record is not in
stable signaling state (in particular while the local side has an
outstanding offer of its own), handleOffer drops the incoming offer:
nothing is emitted and the state is unchanged except that the initiator
flag is cleared.  Glare is not resolved by role. -/
theorem C2_handleOffer_nonstable_drops (st : ClientState) (hls : Bool) (offer : Desc)
    (senderId : String) (pc : PC)
    (hpc : mapGet st.peerConnections senderId = some pc)
    (hs : pc.signalingState ≠ SigState.stable) :
    handleOffer st hls offer senderId = ({ st with isInitiator := false }, []) := by
  unfold handleOffer
  rw [createPeerConnection_of_some hls hpc]
  simp [hs]

/-- C2 witness: the amended drop behaviour at the concrete glare state. -/
theorem C2_witness_glare_drop :
    handleOffer glareState false glareOffer "host"
      = ({ glareState with isInitiator := false }, []) :=
  C2_handleOffer_nonstable_drops glareState false glareOffer "host" glarePC
    (by decide) (by decide)

/-- C6: when the transport for a user reports disconnected or failed, the
record, its data channel and its pending-candidate buffer are all deleted
and the user leaves the connected-users view: every subsequent lookup
finds none of them. -/
theorem C6_teardown_completeness (st : ClientState) (userId : String) (cs : ConnState)
    (h : cs = ConnState.disconnected ∨ cs = ConnState.failed) :
    mapGet (onConnectionStateChange st userId cs).peerConnections userId = none
    ∧ mapGet (onConnectionStateChange st userId cs).dataChannels userId = none
    ∧ mapGet (onConnectionStateChange st userId cs).pendingCandidates userId = none
    ∧ userId ∉ (onConnectionStateChange st userId cs).connectedUsers := by
  unfold onConnectionStateChange
  rw [if_pos h]
  refine ⟨mapGet_mapDelete_self .., mapGet_mapDelete_self .., mapGet_mapDelete_self .., ?_⟩
  simp

/-- C6 witness: teardown at a state holding all four kinds of entry. -/
theorem C6_witness_teardown :
    mapGet (onConnectionStateChange teardownState "g" ConnState.failed).peerConnections "g" = none
    ∧ mapGet (onConnectionStateChange teardownState "g" ConnState.failed).dataChannels "g" = none
    ∧ mapGet (onConnectionStateChange teardownState "g" ConnState.failed).pendingCandidates "g" = none
    ∧ "g" ∉ (onConnectionStateChange teardownState "g" ConnState.failed).connectedUsers :=
  C6_teardown_completeness teardownState "g" ConnState.failed (Or.inr rfl)

/-- C10: an answer from a sender with no record changes nothing: the state
is returned untouched and nothing is emitted. -/
theorem C10_answer_without_record_ignored (st : ClientState) (answer : Desc)
    (senderId : String) (h : mapGet st.peerConnections senderId = none) :
    handleAnswer st answer senderId = (st, []) := by
  unfold handleAnswer
  rw [h]

/-- C10 witness: an answer arriving in the initial state is discarded. -/
theorem C10_witness_answer_ignored :
    handleAnswer initialState { dtype := DescType.answer, sdp := 7 } "g"
      = (initialState, []) :=
  C10_answer_without_record_ignored initialState { dtype := DescType.answer, sdp := 7 }
    "g" rfl

/-- C4 counterexample: in a room with members A, B and C, an offer from A
targeted at B is also delivered to C, a member other than the target.
This refutes the claim that the relay delivers only to targetId. -/
theorem C4_cex_relay_delivers_beyond_target :
    ("C", ({ senderId := "A", targetUserId := "B", payload := 0 } : ForwardedMsg))
        ∈ relayOffer ["A", "B", "C"] "A" "B" 0
    ∧ "C" ≠ "B" := by
  decide

/-- C4 amended: each of the three relay handlers forwards the message,
tagged with the sender id and the requested target id, to every member of
the room except the sender; recipients are not restricted to the target. -/
theorem C4_relay_broadcasts_to_room (roomMembers : List String)
    (senderId targetUserId : String) (payload : Nat) (m : String) (msg : ForwardedMsg) :
    ((m, msg) ∈ relayOffer roomMembers senderId targetUserId payload
      ↔ m ∈ roomMembers ∧ m ≠ senderId
        ∧ msg = { senderId := senderId, targetUserId := targetUserId, payload := payload })
    ∧ ((m, msg) ∈ relayAnswer roomMembers senderId targetUserId payload
      ↔ m ∈ roomMembers ∧ m ≠ senderId
        ∧ msg = { senderId := senderId, targetUserId := targetUserId, payload := payload })
    ∧ ((m, msg) ∈ relayIceCandidate roomMembers senderId targetUserId payload
      ↔ m ∈ roomMembers ∧ m ≠ senderId
        ∧ msg = { senderId := senderId, targetUserId := targetUserId, payload := payload }) := by
  unfold relayOffer relayAnswer relayIceCandidate socketToEmit
  refine ⟨?_, ?_, ?_⟩ <;>
    · simp only [List.mem_map, List.mem_filter, Prod.mk.injEq, decide_eq_true_eq]
      constructor
      · rintro ⟨x, ⟨hx, hne⟩, rfl, rfl⟩
        exact ⟨hx, hne, rfl⟩
      · rintro ⟨hx, hne, rfl⟩
        exact ⟨m, ⟨hx, hne⟩, rfl, rfl⟩

/-- C7 counterexample: an event arriving on the input channel with an x
coordinate of 150 is handed to the input callback unchanged: the receive
side trusts the network, refuting the claim that delivered pointer
coordinates are always within [0,100]. -/
theorem C7_cex_receive_side_trusts_network :
    onDataChannelMessage (WireData.wellFormed oobEvent) = some oobEvent
    ∧ ¬ coordsInRange oobEvent := by
  refine ⟨rfl, fun h => ?_⟩
  have h150 := h.1 150 (by simp [oobEvent])
  norm_num at h150

/-- C7 amended: on the send side a pointer event whose normalised
coordinates fall outside [0,100] is never transmitted and an in-range one
is transmitted with exactly the computed coordinates; on the receive side
however every successfully parsed event is delivered to the input
callback unmodified, with no range validation. -/
theorem C7_input_coordinate_validity (rect : Rect) (cx cy : ℚ) (button ts : Nat)
    (w : WireData) :
    (¬ (0 ≤ normX rect cx ∧ normX rect cx ≤ 100
          ∧ 0 ≤ normY rect cy ∧ normY rect cy ≤ 100) →
        handleMouseMove rect cx cy ts = none ∧ handleClick rect cx cy button ts = none)
    ∧ ((0 ≤ normX rect cx ∧ normX rect cx ≤ 100
          ∧ 0 ≤ normY rect cy ∧ normY rect cy ≤ 100) →
        handleMouseMove rect cx cy ts
          = some { type := InputType.mousemove, x := some (normX rect cx),
                   y := some (normY rect cy), button := none, key := none,
                   code := none, deltaY := none, timestamp := ts }
        ∧ handleClick rect cx cy button ts
          = some { type := InputType.click, x := some (normX rect cx),
                   y := some (normY rect cy), button := some button, key := none,
                   code := none, deltaY := none, timestamp := ts })
    ∧ (∀ ev, parseInputEvent w = some ev → onDataChannelMessage w = some ev) := by
  refine ⟨fun h => ⟨?_, ?_⟩, fun h => ⟨?_, ?_⟩, fun ev hev => ?_⟩
  · simp only [handleMouseMove]; rw [if_neg h]
  · simp only [handleClick]; rw [if_neg h]
  · simp only [handleMouseMove]; rw [if_pos h]
  · simp only [handleClick]; rw [if_pos h]
  · unfold onDataChannelMessage
    rw [hev]

/-- C8 counterexample: the host reacting to a new-member notification in
the initial state emits an offer to the new member while opening no data
channel for it; the same happens on a relayed request-connection.  This
refutes the claim that every host-side idle-to-offering transition opens
the input channel before the offer is emitted. -/
theorem C8_cex_host_offer_without_channel :
    (handleUserConnected initialState false true "guest1").2
        = [OutMsg.offer "guest1" { dtype := DescType.offer, sdp := 0 }]
    ∧ mapGet (handleUserConnected initialState false true "guest1").1.dataChannels
        "guest1" = none
    ∧ (handleSendOffer initialState false true "guest1").2
        = [OutMsg.offer "guest1" { dtype := DescType.offer, sdp := 0 }]
    ∧ mapGet (handleSendOffer initialState false true "guest1").1.dataChannels
        "guest1" = none := by
  decide

/-- C8 amended: only the explicit startCall path opens the input channel
when the local role is host (after it, a channel for the target exists and
one offer to the target is emitted); the new-member-notification and
request-connection paths emit their offer while leaving the data-channel
map untouched. -/
theorem C8_input_channel_only_in_startCall (st : ClientState) (hls : Bool)
    (uid : String) (target : Option String) :
    (mapHas (startCall st hls true target).1.dataChannels (target.getD "broadcast") = true
      ∧ ∃ d, (startCall st hls true target).2 = [OutMsg.offer (target.getD "broadcast") d])
    ∧ (handleUserConnected st hls true uid).1.dataChannels = st.dataChannels
    ∧ (handleSendOffer st hls true uid).1.dataChannels = st.dataChannels := by
  refine ⟨⟨?_, ?_⟩, ?_, ?_⟩
  · unfold startCall
    dsimp only
    split
    · unfold setupDataChannel mapHas
      simp [mapGet_mapSet_self]
    · rename_i hcond
      simp only [Bool.true_and, Bool.not_eq_true'] at hcond
      simpa using hcond
  · exact ⟨_, rfl⟩
  · unfold handleUserConnected
    rw [if_pos rfl]
    simpa using
      createPeerConnection_dataChannels { st with isInitiator := true } hls uid
  · unfold handleSendOffer
    simpa using createPeerConnection_dataChannels st hls uid

/-- C5: an inbound answer is applied only when the record for the sender
is in have-local-offer (otherwise nothing changes and nothing is
emitted); when it is applied, the remote answer is installed and the
sender joins the connected-users view at exactly that point — the offer
paths never touch the connected-users view. -/
theorem C5_answer_gating_and_connect (st : ClientState) (answer offer : Desc)
    (senderId : String) (hls : Bool) :
    (∀ pc, mapGet st.peerConnections senderId = some pc →
        pc.signalingState ≠ SigState.haveLocalOffer →
        handleAnswer st answer senderId = (st, []))
    ∧ (∀ pc, mapGet st.peerConnections senderId = some pc →
        pc.signalingState = SigState.haveLocalOffer →
        ((handleAnswer st answer senderId).1.connectedUsers
            = (if senderId ∈ st.connectedUsers then st.connectedUsers
               else st.connectedUsers ++ [senderId])
          ∧ ∃ pc', mapGet (handleAnswer st answer senderId).1.peerConnections senderId
                = some pc' ∧ pc'.remoteDescription = some answer))
    ∧ (handleOffer st hls offer senderId).1.connectedUsers = st.connectedUsers
    ∧ (∀ isHost uid,
        (handleUserConnected st hls isHost uid).1.connectedUsers = st.connectedUsers)
    ∧ (∀ isHost uid,
        (handleSendOffer st hls isHost uid).1.connectedUsers = st.connectedUsers)
    ∧ (∀ isHost t, (startCall st hls isHost t).1.connectedUsers = st.connectedUsers) := by
  refine ⟨fun pc hpc hne => ?_, fun pc hpc heq => ?_,
    handleOffer_connectedUsers .., fun isHost uid => handleUserConnected_connectedUsers ..,
    fun isHost uid => handleSendOffer_connectedUsers ..,
    fun isHost t => startCall_connectedUsers ..⟩
  · unfold handleAnswer
    rw [hpc]
    simp [hne]
  · unfold handleAnswer
    rw [hpc]
    simp only [heq, ne_eq, not_true_eq_false, if_false, reduceIte]
    constructor
    · by_cases hm : senderId ∈ st.connectedUsers
      · simp [hm]
      · simp [hm]
    · refine ⟨_, mapGet_mapSet_self .., ?_⟩
      rw [drainPending_remoteDescription]

/-- C3: an inbound candidate is appended to the sender's pending buffer
exactly when no record exists or the remote description is not yet
installed, and applied immediately otherwise; once handleOffer or
handleAnswer installs the remote description, every buffered candidate is
attempted in order (the valid ones land on the connection) and the buffer
is cleared regardless of individual failures. -/
theorem C3_candidate_buffering (st : ClientState) (cand : Candidate)
    (senderId : String) (hls : Bool) (offer answer : Desc) :
    (buffersCandidate st senderId = true →
        handleIceCandidate st cand senderId
          = { st with pendingCandidates :=
                mapSet st.pendingCandidates senderId (getPending st senderId ++ [cand]) })
    ∧ (buffersCandidate st senderId = false →
        ∃ pc, mapGet st.peerConnections senderId = some pc
          ∧ handleIceCandidate st cand senderId
              = { st with peerConnections :=
                    mapSet st.peerConnections senderId (addIceCandidate pc cand) })
    ∧ (acceptsOffer st senderId = true →
        mapGet (handleOffer st hls offer senderId).1.pendingCandidates senderId = some []
        ∧ ∃ pc, mapGet (handleOffer st hls offer senderId).1.peerConnections senderId
              = some pc
            ∧ pc.applied = appliedOf st senderId
                ++ (getPending st senderId).filter (fun c => c.valid))
    ∧ (∀ pc₀, mapGet st.peerConnections senderId = some pc₀ →
        pc₀.signalingState = SigState.haveLocalOffer →
        mapGet (handleAnswer st answer senderId).1.pendingCandidates senderId = some []
        ∧ ∃ pc, mapGet (handleAnswer st answer senderId).1.peerConnections senderId
              = some pc
            ∧ pc.applied = pc₀.applied
                ++ (getPending st senderId).filter (fun c => c.valid)) := by
  refine ⟨fun hb => ?_, fun hb => ?_, fun ha => ?_, fun pc₀ hpc heq => ?_⟩
  · unfold buffersCandidate at hb
    unfold handleIceCandidate getPending
    cases h : mapGet st.peerConnections senderId with
    | none => rfl
    | some pc =>
        rw [h] at hb
        simp only [Bool.not_eq_true'] at hb
        dsimp only
        rw [if_neg (by simp [hb])]
  · unfold buffersCandidate at hb
    unfold handleIceCandidate
    cases h : mapGet st.peerConnections senderId with
    | none => rw [h] at hb; simp at hb
    | some pc =>
        rw [h] at hb
        have hb' : pc.remoteDescription.isSome = true := by simpa using hb
        refine ⟨pc, rfl, ?_⟩
        dsimp only
        rw [if_pos hb']
  · unfold acceptsOffer at ha
    unfold handleOffer
    cases h : mapGet st.peerConnections senderId with
    | none =>
        have hpend := createPeerConnection_getPending st hls senderId
        rw [createPeerConnection_of_none hls h] at hpend ⊢
        dsimp only
        rw [if_neg (by simp)]
        refine ⟨mapGet_mapSet_self .., _, mapGet_mapSet_self .., ?_⟩
        rw [drainPending_applied]
        unfold getPending at hpend ⊢
        dsimp only at hpend ⊢
        rw [hpend]
        unfold appliedOf
        rw [h]
    | some pc =>
        rw [h] at ha
        simp only [decide_eq_true_eq] at ha
        rw [createPeerConnection_of_some hls h]
        dsimp only
        rw [if_neg (by simp [ha])]
        refine ⟨mapGet_mapSet_self .., _, mapGet_mapSet_self .., ?_⟩
        rw [drainPending_applied]
        unfold appliedOf getPending
        rw [h]
  · unfold handleAnswer
    rw [hpc]
    simp only [heq, ne_eq, not_true_eq_false, if_false, reduceIte]
    refine ⟨mapGet_mapSet_self .., _, mapGet_mapSet_self .., ?_⟩
    rw [drainPending_applied]
    unfold getPending
    rfl

/-- C9: in every reachable hook state the connected-users list holds
pairwise-distinct ids: answer handling inserts only when absent and
teardown filters, while every other operation leaves the list alone. -/
theorem C9_connectedUsers_nodup (st : ClientState) (h : Reachable st) :
    st.connectedUsers.Nodup := by
  induction h with
  | init => simp [initialState]
  | @next st' h e ih =>
      cases e with
      | userConnected hls isHost uid =>
          unfold step
          rw [handleUserConnected_connectedUsers]
          exact ih
      | sendOffer hls isHost rid =>
          unfold step
          rw [handleSendOffer_connectedUsers]
          exact ih
      | offer hls p s =>
          unfold step
          rw [handleOffer_connectedUsers]
          exact ih
      | answer p s =>
          unfold step
          rcases handleAnswer_connectedUsers_cases st' p s with hc | ⟨hc, hmem⟩
          · rw [hc]; exact ih
          · rw [hc]
            simp [List.nodup_append, ih, hmem]
      | iceCandidate p s =>
          unfold step
          rw [handleIceCandidate_connectedUsers]
          exact ih
      | connStateChange u cs =>
          unfold step
          rcases onConnectionStateChange_connectedUsers_cases st' u cs with hc | hc
          · rw [hc]; exact ih
          · rw [hc]; exact ih.filter _
      | callStart hls isHost t =>
          unfold step
          rw [startCall_connectedUsers]
          exact ih

/-- C9 witness: the invariant at the initial reachable state. -/
theorem C9_witness_nodup : (initialState : ClientState).connectedUsers.Nodup :=
  C9_connectedUsers_nodup initialState Reachable.init

end Remote
